import Mathlib

/-!
# Verification of the simple-google-search-mcp content and search pipeline

A shallow embedding of `src/content-fetcher.ts` and `src/index.ts`
(classes `ContentFetcher` and `GoogleSearchService`), together with
theorems settling the specification's claims about them.

The network (axios) is modelled as an oracle passed to each operation;
HTML parsing (cheerio.load) is modelled by taking the already-parsed
document tree as the oracle's answer. Everything else — validation,
noise removal, content-region selection, markdown rendering, statistics,
batch aggregation, parameter mapping, response normalization — is
translated line by line from the TypeScript source (non-test-mode paths).
-/

namespace GoogleSearchMcp

/-! ## JavaScript string primitives -/

/-- The characters matched by the JavaScript regular-expression class `\s`
and stripped by `String.prototype.trim`: ASCII whitespace plus the common
Unicode space characters. -/
def isJsWhitespace (c : Char) : Bool :=
  c = ' ' || c = '\t' || c = '\n' || c = '\r' || c = '\x0b' || c = '\x0c' ||
  c = '\u00A0' || c = '\uFEFF' || c = '\u2028' || c = '\u2029'

/-- Strip leading and trailing JavaScript whitespace from a character list. -/
def jsTrimList (l : List Char) : List Char :=
  ((l.dropWhile isJsWhitespace).reverse.dropWhile isJsWhitespace).reverse

/-- Model of `String.prototype.trim`. -/
def jsTrim (s : String) : String := String.mk (jsTrimList s.toList)

mutual
/-- `replace(/\s+/g, ' ')`, scanning outside a whitespace run. -/
def collapseRun : List Char → List Char
  | [] => []
  | c :: cs => if isJsWhitespace c then ' ' :: collapseSkip cs else c :: collapseRun cs
/-- `replace(/\s+/g, ' ')`, scanning inside a whitespace run whose
replacement space has already been emitted. -/
def collapseSkip : List Char → List Char
  | [] => []
  | c :: cs => if isJsWhitespace c then collapseSkip cs else c :: collapseRun cs
end

/-- Model of `.text().trim().replace(/\s+/g, ' ')`
(content-fetcher.ts line 84) applied to an extracted text. -/
def normalizeText (s : String) : String :=
  String.mk (collapseRun (jsTrimList s.toList))

/-- Model of `s.split(/\s+/).filter(Boolean).length`
(content-fetcher.ts line 105): splitting at every whitespace character and
discarding empty pieces counts exactly the maximal runs of non-whitespace
characters, which is what the JavaScript split-on-`\s+`-then-filter computes. -/
def countWords (s : String) : Nat :=
  ((s.toList.splitOnP isJsWhitespace).filter (· ≠ [])).length

/-- Model of `s.substring(0, n)` (with the model's characters standing in
for UTF-16 code units). -/
def jsSubstring (s : String) (n : Nat) : String := String.mk (s.toList.take n)

/-- Model of `String.prototype.toUpperCase` (ASCII letters; the source only
applies it to ISO 3166-1 alpha-2 country codes). -/
def jsToUpperCase (s : String) : String := String.mk (s.toList.map Char.toUpper)

/-- JavaScript truthiness of an optional string: `undefined` and `""` are
falsy; a truthy-guarded value collapses to `none` when falsy. -/
def strTruthy : Option String → Option String
  | none => none
  | some s => if s = "" then none else some s

/-! ## The WHATWG URL constructor

Both `ContentFetcher.fetchContent` and the router handlers validate URLs by
calling `new URL(url)` and catching the exception. We model the WHATWG URL
constructor: the input must begin with a scheme (an ASCII letter followed by
letters, digits, `+`, `-`, `.`) terminated by `:`; for the special schemes
other than `file` (`http`, `https`, `ws`, `wss`, `ftp`) a nonempty host must
follow (after optional slashes). Note the constructor accepts any scheme —
`new URL("ftp://example.com")` succeeds — so this check does not restrict
inputs to `http`/`https`. -/

/-- Characters allowed in a URL scheme after the first. -/
def isSchemeChar (c : Char) : Bool := c.isAlphanum || c = '+' || c = '-' || c = '.'

/-- The WHATWG special schemes that require a nonempty host. -/
def requiresHost (scheme : List Char) : Bool :=
  let s := String.mk scheme
  s = "http" || s = "https" || s = "ws" || s = "wss" || s = "ftp"

/-- Model of `new URL(input)` succeeding (no base URL). -/
def isValidURLString (s : String) : Bool :=
  let l := s.toList
  let scheme := l.takeWhile (· ≠ ':')
  match l.drop scheme.length with
  | [] => false
  | _ :: afterColon =>
    (match scheme with
     | [] => false
     | c :: cs => c.isAlpha && cs.all isSchemeChar) &&
    (if requiresHost scheme then
       ((afterColon.dropWhile (· = '/')).takeWhile
         (fun c => c ≠ '/' && c ≠ '?' && c ≠ '#')) ≠ []
     else true)

/-! ## The document model

`cheerio.load` parses HTML into a tree; we take the parsed tree as given. -/

/-- A node of the parsed document tree. -/
inductive HNode where
  | text (s : String)
  | elem (tag : String) (attrs : List (String × String)) (children : List HNode)

/-- The (lower-cased) tag name of a node; text nodes have none. -/
def tagOf : HNode → String
  | .text _ => ""
  | .elem t _ _ => t

/-- The value of an attribute, first occurrence winning, as in HTML. -/
def attrVal (n : HNode) (key : String) : Option String :=
  match n with
  | .text _ => none
  | .elem _ attrs _ => (attrs.find? (fun p => p.1 == key)).map Prod.snd

/-- CSS class-selector semantics: the `class` attribute, split on
whitespace, contains the token. -/
def hasClassToken (n : HNode) (cls : String) : Bool :=
  match attrVal n "class" with
  | none => false
  | some s => (s.toList.splitOnP isJsWhitespace).any (fun t => String.mk t == cls)

/-- CSS id-selector semantics. -/
def idIs (n : HNode) (v : String) : Bool := attrVal n "id" == some v

mutual
/-- All strict descendants of a node, in document (pre)order — the search
space of a cheerio `$(selector)` / `.find(selector)` call rooted there. -/
def descendants : HNode → List HNode
  | .text _ => []
  | .elem _ _ cs => descendantsList cs
/-- Document-order listing of a forest together with all its descendants. -/
def descendantsList : List HNode → List HNode
  | [] => []
  | c :: cs => c :: descendants c ++ descendantsList cs
end

mutual
/-- cheerio `.text()`: concatenation of every descendant text node. -/
def textContent : HNode → String
  | .text s => s
  | .elem _ _ cs => textContentList cs
/-- `.text()` over a forest. -/
def textContentList : List HNode → String
  | [] => ""
  | c :: cs => textContent c ++ textContentList cs
end

/-- All descendants of the document with the given tag, in document order:
cheerio `$(tag)`. -/
def selectAll (tag : String) (doc : HNode) : List HNode :=
  (descendants doc).filter (fun n => tagOf n == tag)

/-! ## The extraction pipeline (`ContentFetcher.fetchContent`) -/

/-- The tag names removed by the noise selector at content-fetcher.ts
line 61. -/
def noiseTags : List String :=
  ["script", "style", "nav", "footer", "header", "aside", "iframe"]

/-- Whether the removal selector
`script, style, nav, footer, header, aside, iframe, .ads, .advertisement,
.banner, #banner, #ads` matches a node. -/
def isNoise (n : HNode) : Bool :=
  noiseTags.contains (tagOf n) ||
  hasClassToken n "ads" || hasClassToken n "advertisement" ||
  hasClassToken n "banner" || idIs n "banner" || idIs n "ads"

mutual
/-- `$('script, …').remove()`: drop every matching subtree. -/
def removeNoise : HNode → HNode
  | .text s => .text s
  | .elem t a cs => .elem t a (removeNoiseList cs)
/-- Noise removal over a forest. -/
def removeNoiseList : List HNode → List HNode
  | [] => []
  | c :: cs =>
    if isNoise c then removeNoiseList cs else removeNoise c :: removeNoiseList cs
end

/-- `div[role="main"]`. -/
def isDivRoleMain (n : HNode) : Bool :=
  tagOf n == "div" && attrVal n "role" == some "main"

/-- `div.content, div.main, div#content, div#main`. -/
def isDivContentOrMain (n : HNode) : Bool :=
  tagOf n == "div" &&
  (hasClassToken n "content" || hasClassToken n "main" ||
   idIs n "content" || idIs n "main")

/-- The priority cascade at content-fetcher.ts lines 64-76: `main`, then
`article`, then `div[role=main]`, then the content/main div convention,
falling back to `body`. Each tier yields every matching element in document
order (a cheerio selection). -/
def selectMainContent (cleaned : HNode) : List HNode :=
  let d := descendants cleaned
  let m1 := d.filter (fun n => tagOf n == "main")
  if m1.length == 0 then
    let m2 := d.filter (fun n => tagOf n == "article")
    if m2.length == 0 then
      let m3 := d.filter isDivRoleMain
      if m3.length == 0 then
        let m4 := d.filter isDivContentOrMain
        if m4.length == 0 then d.filter (fun n => tagOf n == "body")
        else m4
      else m3
    else m2
  else m1

/-- The tags gathered by `mainContent.find('h1, h2, h3, h4, h5, h6, p, ul,
ol, blockquote')`. -/
def blockTags : List String :=
  ["h1", "h2", "h3", "h4", "h5", "h6", "p", "ul", "ol", "blockquote"]

/-- `tagName.startsWith('h')`. -/
def startsWithH (tag : String) : Bool :=
  match tag.toList with
  | 'h' :: _ => true
  | _ => false

/-- `parseInt(tagName.substring(1))` for the tags reaching the heading
branch (only `h1` … `h6` can, so a single digit suffices). -/
def headingLevel (tag : String) : Nat :=
  match tag.toList.drop 1 with
  | [c] => if c.isDigit then c.toNat - '0'.toNat else 0
  | _ => 0

/-- `'#'.repeat(n)`. -/
def hashRepeat (n : Nat) : String := String.mk (List.replicate n '#')

/-- `$(element).find('li')`. -/
def listItems (el : HNode) : List HNode :=
  (descendants el).filter (fun n => tagOf n == "li")

/-- One iteration of the rendering loop at content-fetcher.ts lines 82-102:
the markdown text contributed by one matched block element. -/
def renderBlock (el : HNode) : String :=
  let tag := tagOf el
  let text := normalizeText (textContent el)
  if text = "" then ""
  else if startsWithH tag then
    hashRepeat (headingLevel tag) ++ " " ++ text ++ "\n\n"
  else if tag = "p" then text ++ "\n\n"
  else if tag = "ul" || tag = "ol" then
    ((listItems el).foldl
      (fun acc li => acc ++ "- " ++ jsTrim (textContent li) ++ "\n") "") ++ "\n"
  else if tag = "blockquote" then "> " ++ text ++ "\n\n"
  else ""

/-- The matched block elements of the selected content region, in document
order. -/
def contentBlocks (selected : List HNode) : List HNode :=
  (selected.map (fun n =>
    (descendants n).filter (fun m => blockTags.contains (tagOf m)))).flatten

/-- The accumulated `markdownContent` string. -/
def renderMarkdown (selected : List HNode) : String :=
  (contentBlocks selected).foldl (fun acc el => acc ++ renderBlock el) ""

/-- JavaScript object property assignment `obj[k] = v` on an object
represented as an insertion-ordered association list: overwrite in place if
the key is present, append otherwise (later duplicate keys overwrite
earlier ones). -/
def objAssign {α : Type} (m : List (String × α)) (k : String) (v : α) :
    List (String × α) :=
  if m.any (fun p => p.1 == k) then m.map (fun p => if p.1 = k then (k, v) else p)
  else m ++ [(k, v)]

/-- `$('meta[key=val]').attr('content')`: the `content` attribute of the
first matching element. -/
def metaAttrContent (doc : HNode) (key val : String) : Option String :=
  match (descendants doc).filter
      (fun n => tagOf n == "meta" && attrVal n key == some val) with
  | [] => none
  | n :: _ => attrVal n "content"

/-- The meta-tag collection loop at content-fetcher.ts lines 48-55:
`metaTags[name] = content` for every meta element whose
`name || property` and `content` are truthy. -/
def collectMetaTags (doc : HNode) : List (String × String) :=
  (selectAll "meta" doc).foldl
    (fun m n =>
      match (strTruthy (attrVal n "name")).orElse
              (fun _ => strTruthy (attrVal n "property")),
            strTruthy (attrVal n "content") with
      | some k, some v => objAssign m k v
      | _, _ => m) []

/-- `stats` of a `WebpageContent`. -/
structure ContentStats where
  word_count : Nat
  approximate_chars : Nat
deriving DecidableEq

/-- `content_preview` of a `WebpageContent`. -/
structure ContentPreview where
  first_500_chars : String
deriving DecidableEq

/-- The success payload of a single extraction (`WebpageContent` in
types.ts). -/
structure WebpageContent where
  url : String
  title : String
  description : String
  markdown_content : String
  meta_tags : List (String × String)
  stats : ContentStats
  content_preview : ContentPreview
deriving DecidableEq

/-- The pure part of `ContentFetcher.fetchContent` (content-fetcher.ts
lines 39-121) applied to an already-fetched, already-parsed document. -/
def extractContent (url : String) (doc : HNode) : WebpageContent :=
  let titleText := jsTrim (String.join ((selectAll "title" doc).map textContent))
  let title := if titleText = "" then "No Title" else titleText
  let description :=
    ((strTruthy (metaAttrContent doc "name" "description")).orElse
      (fun _ => strTruthy (metaAttrContent doc "property" "og:description"))).getD ""
  let metaTags := collectMetaTags doc
  let cleaned := removeNoise doc
  let markdownContent := renderMarkdown (selectMainContent cleaned)
  { url := url
    title := title
    description := description
    markdown_content := markdownContent
    meta_tags := metaTags
    stats :=
      { word_count := countWords markdownContent
        approximate_chars := markdownContent.length }
    content_preview := { first_500_chars := jsSubstring markdownContent 500 } }

/-! ## Fetching (`ContentFetcher.fetchContent`, effectful part) -/

/-- The possible outcomes of the axios GET issued for one URL; a `2xx`
response carries the parsed document. -/
inductive NetResponse where
  | ok (doc : HNode)
  | httpError (status : Nat)
  | transportError (msg : String)

/-- The error classes thrown by `ContentFetcher.fetchContent`
(content-fetcher.ts lines 122-131): the inner invalid-URL throw, the
axios-error-with-response rethrow, and the generic `Error` rethrow. -/
inductive FetchErr where
  | invalidUrl (url : String)
  | httpStatus (status : Nat) (url : String)
  | extractionFailure (msg : String)
deriving DecidableEq

/-- The `error.message` string each thrown error carries (content-fetcher.ts
lines 24, 125, 127). -/
def fetchErrMessage : FetchErr → String
  | .invalidUrl u => "コンテンツ抽出エラー: 無効なURL形式: " ++ u
  | .httpStatus s u =>
    "ウェブページの取得に失敗しました (HTTP " ++ toString s ++ "): " ++ u
  | .extractionFailure m => "コンテンツ抽出エラー: " ++ m

instance {ε α : Type} [DecidableEq ε] [DecidableEq α] :
    DecidableEq (Except ε α) := fun a b =>
  match a, b with
  | .ok x, .ok y =>
    if h : x = y then .isTrue (by rw [h])
    else .isFalse (fun hc => h (Except.ok.inj hc))
  | .error x, .error y =>
    if h : x = y then .isTrue (by rw [h])
    else .isFalse (fun hc => h (Except.error.inj hc))
  | .ok _, .error _ => .isFalse (fun hc => Except.noConfusion hc)
  | .error _, .ok _ => .isFalse (fun hc => Except.noConfusion hc)

/-- `ContentFetcher.fetchContent` (non-test mode), with the network as an
oracle from URL to response: validate via the URL constructor, fetch, then
extract. -/
def fetchContent (net : String → NetResponse) (url : String) :
    Except FetchErr WebpageContent :=
  if isValidURLString url then
    match net url with
    | .ok doc => .ok (extractContent url doc)
    | .httpError s => .error (.httpStatus s url)
    | .transportError m => .error (.extractionFailure m)
  else .error (.invalidUrl url)

/-! ## Batch extraction (`ContentFetcher.batchFetchContent`) -/

/-- One slot of the batch result object: a `WebpageContent` or an
`{ error: message }` entry. -/
inductive BatchEntry where
  | page (c : WebpageContent)
  | failure (errorMessage : String)
deriving DecidableEq

/-- The value stored in `results[url]` for one URL (content-fetcher.ts
lines 156-166): the extracted content on success, otherwise the caught
error's message. -/
def batchEntry (net : String → NetResponse) (url : String) : BatchEntry :=
  match fetchContent net url with
  | .ok c => .page c
  | .error e => .failure (fetchErrMessage e)

/-- The `Promise.all(urls.map(...))` aggregation writing `results[url]`.
Each slot's value depends only on its own URL, so the concurrent
completion order cannot change the final object; we model the aggregation
as a left fold in input order. -/
def batchRun (net : String → NetResponse) (urls : List String)
    (acc : List (String × BatchEntry)) : List (String × BatchEntry) :=
  urls.foldl (fun m url => objAssign m url (batchEntry net url)) acc

/-- The message of the size-limit throw at content-fetcher.ts line 150. -/
def batchLimitMessage : String :=
  "パフォーマンスを維持するため、一度に最大5つのURLまでに制限されています。"

/-- `ContentFetcher.batchFetchContent` (non-test mode, content-fetcher.ts
lines 148-169): reject more than 5 URLs before anything else, then fan out. -/
def batchFetchContent (net : String → NetResponse) (urls : List String) :
    Except String (List (String × BatchEntry)) :=
  if urls.length > 5 then .error batchLimitMessage
  else .ok (batchRun net urls [])

/-! ## Router handlers for extraction (`GoogleSearchService`) -/

/-- Outcome of the `extract_webpage_content` handler
(`handleAnalyzeWebpage`, index.ts lines 312-339). -/
inductive SingleOutcome where
  | invalidUrlError
  | page (c : WebpageContent)
  | extractionError (msg : String)
deriving DecidableEq

/-- `GoogleSearchService.handleAnalyzeWebpage`: its own `new URL` check,
then the fetch, errors recovered into the response envelope. -/
def handleAnalyzeWebpage (net : String → NetResponse) (url : String) :
    SingleOutcome :=
  if isValidURLString url then
    match fetchContent net url with
    | .ok c => .page c
    | .error e => .extractionError (fetchErrMessage e)
  else .invalidUrlError

/-- Outcome of the `extract_multiple_webpages` handler
(`handleBatchAnalyzeWebpages`, index.ts lines 344-402). -/
inductive BatchOutcome where
  | limitError
  | invalidUrlsError (invalid : List String)
  | allFailedError
  | results (m : List (String × BatchEntry))
  | caughtError (msg : String)
deriving DecidableEq

/-- Whether a batch slot is an `{ error: ... }` entry
(`'error' in results[url]`). -/
def isFailureEntry : BatchEntry → Bool
  | .page _ => false
  | .failure _ => true

/-- index.ts lines 377-379:
`Object.keys(results).filter(url => results[url] && !('error' in results[url]))`. -/
def successfulKeys (m : List (String × BatchEntry)) : List String :=
  (m.map Prod.fst).filter (fun u =>
    match m.find? (fun p => p.1 == u) with
    | some p => !isFailureEntry p.2
    | none => false)

/-- `GoogleSearchService.handleBatchAnalyzeWebpages`: size limit, syntactic
validation of every URL, the batch call, then the all-failed check over
`Object.keys(results)`. -/
def handleBatchAnalyzeWebpages (net : String → NetResponse)
    (urls : List String) : BatchOutcome :=
  if urls.length > 5 then .limitError
  else if (urls.filter (fun u => !isValidURLString u)).length > 0 then
    .invalidUrlsError (urls.filter (fun u => !isValidURLString u))
  else
    match batchFetchContent net urls with
    | .error e => .caughtError e
    | .ok m =>
      if (successfulKeys m).length = 0 then .allFailedError else .results m

/-! ## The search client (`GoogleSearchService.handleSearch`) -/

/-- The credentials returned by `getApiKeys()`. -/
structure ApiCredentials where
  apiKey : String
  searchEngineId : String
deriving DecidableEq

/-- The arguments of the `google_search` tool (index.ts line 247).
JavaScript `undefined` is `none`. -/
structure SearchArgs where
  query : String
  num_results : Option Int := none
  date_restrict : Option String := none
  language : Option String := none
  country : Option String := none
  safe_search : Option String := none
deriving DecidableEq

/-- The upstream query-parameter object built at index.ts lines 265-274. -/
structure UpstreamParams where
  key : String
  cx : String
  q : String
  num : Int
  dateRestrict : Option String
  lr : Option String
  cr : Option String
  safe : String
deriving DecidableEq

/-- index.ts lines 265-274, including the JavaScript truthiness of each
conditional: `num_results || 5`, `language ? lang_… : undefined`,
`country ? country… : undefined`, `safe_search || 'off'`. -/
def buildSearchParams (creds : ApiCredentials) (args : SearchArgs) :
    UpstreamParams :=
  { key := creds.apiKey
    cx := creds.searchEngineId
    q := args.query
    num := match args.num_results with
           | some n => if n ≠ 0 then n else 5
           | none => 5
    dateRestrict := args.date_restrict
    lr := match strTruthy args.language with
          | some l => some ("lang_" ++ l)
          | none => none
    cr := match strTruthy args.country with
          | some c => some ("country" ++ jsToUpperCase c)
          | none => none
    safe := (strTruthy args.safe_search).getD "off" }

/-- One element of the upstream `items` array, with the fields the mapping
at index.ts lines 287-294 reads; `pagemap` is carried as an opaque
passthrough payload and `publishedTime` is the already-navigated
`pagemap?.metatags?.[0]?.['article:published_time']` chain. -/
structure UpstreamItem where
  title : String
  link : String
  snippet : String
  pagemap : Option String
  publishedTime : Option String
  displayLink : Option String
deriving DecidableEq

/-- The shape of `response.data.items` as the check at index.ts line 280
distinguishes it: absent/falsy, present but not an array, or an array. -/
inductive ItemsField where
  | missing
  | notArray
  | array (items : List UpstreamItem)
deriving DecidableEq

/-- The upstream search call's outcome: a JSON body with an `items` field
shape, or an axios throw handled by `handleError`. -/
inductive UpstreamResponse where
  | respond (items : ItemsField)
  | fail (msg : String)
deriving DecidableEq

/-- A normalized `SearchResult` (types.ts / index.ts lines 287-294). -/
structure SearchResult where
  title : String
  link : String
  snippet : String
  pagemap : Option String
  datePublished : String
  source : String
deriving DecidableEq

/-- The per-item normalization: `|| ''` on the published time and the
display link. -/
def mapSearchItem (item : UpstreamItem) : SearchResult :=
  { title := item.title
    link := item.link
    snippet := item.snippet
    pagemap := item.pagemap
    datePublished := item.publishedTime.getD ""
    source := item.displayLink.getD "" }

/-- Outcome of the `google_search` handler. -/
inductive SearchOutcome where
  | emptyQueryError
  | invalidResultCountError
  | noResultsError
  | results (rs : List SearchResult)
  | upstreamError (msg : String)
deriving DecidableEq

/-- The range check at index.ts line 255:
`args.num_results && (args.num_results < 1 || args.num_results > 10)` —
note that `0` is falsy, so `num_results: 0` does NOT trip this check. -/
def resultCountRejected (args : SearchArgs) : Bool :=
  match args.num_results with
  | some n => n != 0 && (decide (n < 1) || decide (n > 10))
  | none => false

/-- `GoogleSearchService.handleSearch` (index.ts lines 247-307): empty-query
check, result-count check, then credential lookup, the upstream call and
response normalization, with the `items` well-formedness check. -/
def handleSearch (creds : ApiCredentials)
    (net : UpstreamParams → UpstreamResponse) (args : SearchArgs) :
    SearchOutcome :=
  if jsTrim args.query = "" then .emptyQueryError
  else if resultCountRejected args then .invalidResultCountError
  else
    match net (buildSearchParams creds args) with
    | .fail m => .upstreamError m
    | .respond .missing => .noResultsError
    | .respond .notArray => .noResultsError
    | .respond (.array items) => .results (items.map mapSearchItem)

/-! ## Concrete fixtures -/

/-- The scenario document of the spec: a body holding exactly
`<h1>A</h1><p>B C</p>`, no `<main>`/`<article>` region, no title. -/
def scenarioDoc : HNode :=
  .elem "html" []
    [ .elem "head" [] []
    , .elem "body" []
        [ .elem "h1" [] [.text "A"]
        , .elem "p" [] [.text "B C"] ] ]

/-- A network oracle serving `scenarioDoc` at `https://example.com`. -/
def scenarioNet : String → NetResponse := fun u =>
  if u = "https://example.com" then .ok scenarioDoc
  else .transportError "unreachable"

/-- A network oracle on which every request fails at the transport level
with a recognizable message, so a result that carries it proves the
request was issued. -/
def failingNet : String → NetResponse := fun _ => .transportError "probe"

/-- Stub credentials. -/
def stubCreds : ApiCredentials := ⟨"key", "cx"⟩

/-- A search oracle answering a well-formed, empty `items` array. -/
def emptyItemsNet : UpstreamParams → UpstreamResponse := fun _ =>
  .respond (.array [])

/-- Search arguments with `num_results = 0`. -/
def zeroCountArgs : SearchArgs := { query := "lean", num_results := some 0 }

/-- Search arguments exercising the language/country/safe-search mapping. -/
def mappingArgs : SearchArgs :=
  { query := "lean", language := some "ja", country := some "us" }

/-! ## Helper lemmas -/

/-- Trimming a string of whitespace leaves nothing. -/
theorem jsTrimList_eq_nil {l : List Char}
    (h : ∀ c ∈ l, isJsWhitespace c = true) : jsTrimList l = [] := by
  unfold jsTrimList
  rw [List.dropWhile_eq_nil_iff.mpr h]
  rfl

/-! ## Claims -/

/-- C2, counterexample: on the scenario document the code renders
`markdown_content = "# A\n\nB C\n\n"` as the spec says, but
`split(/\s+/).filter(Boolean)` counts the `#` as a token, so
`stats.word_count` is 4, not the claimed 3. -/
theorem scenario_word_count_ne_three :
    (extractContent "https://example.com" scenarioDoc).markdown_content =
      "# A\n\nB C\n\n" ∧
    (extractContent "https://example.com" scenarioDoc).stats.word_count ≠ 3 := by
  decide

/-- C2, amended: for input `https://example.com` with a document whose body
contains exactly `<h1>A</h1><p>B C</p>` and no main/article region,
extraction produces `markdown_content = "# A\n\nB C\n\n"` and
`stats.word_count = 4` (the heading marker `#` counts as a token). -/
theorem scenario_extraction :
    fetchContent scenarioNet "https://example.com" =
      .ok (extractContent "https://example.com" scenarioDoc) ∧
    (extractContent "https://example.com" scenarioDoc).markdown_content =
      "# A\n\nB C\n\n" ∧
    (extractContent "https://example.com" scenarioDoc).stats.word_count = 4 := by
  decide

/-- C4, counterexample: `"ftp://example.com"` is not an http/https URL, yet
the `new URL` validation accepts it and the fetch IS issued — the result
carries the probe oracle's transport message instead of an InvalidUrl
failure, on both the fetcher and the router path. -/
theorem ftp_url_not_rejected :
    isValidURLString "ftp://example.com" = true ∧
    fetchContent failingNet "ftp://example.com" =
      .error (.extractionFailure "probe") ∧
    handleAnalyzeWebpage failingNet "ftp://example.com" =
      .extractionError (fetchErrMessage (.extractionFailure "probe")) := by
  decide

/-- C4, amended: every input string the URL constructor rejects (any
scheme accepted — only genuinely unparsable strings are rejected) fails
with InvalidUrl on both the fetcher and the router path, independently of
the network oracle, hence before any network request. -/
theorem invalid_url_rejected_before_fetch (url : String)
    (net : String → NetResponse) (h : isValidURLString url = false) :
    fetchContent net url = .error (.invalidUrl url) ∧
    handleAnalyzeWebpage net url = .invalidUrlError := by
  constructor <;> simp [fetchContent, handleAnalyzeWebpage, h]

/-- Witness for C4 at the spec's own scenario input `"invalid-url"`. -/
theorem invalid_url_rejected_before_fetch_witness :
    isValidURLString "invalid-url" = false ∧
    (fetchContent failingNet "invalid-url" =
        .error (.invalidUrl "invalid-url") ∧
     handleAnalyzeWebpage failingNet "invalid-url" = .invalidUrlError) :=
  ⟨by decide,
   invalid_url_rejected_before_fetch "invalid-url" failingNet (by decide)⟩

/-- C7: an empty or whitespace-only query makes the search fail with the
empty-query error, for every credential pair and every upstream oracle —
so before any credential lookup and without any network call. -/
theorem empty_query_rejected (creds : ApiCredentials)
    (net : UpstreamParams → UpstreamResponse) (args : SearchArgs)
    (h : ∀ c ∈ args.query.toList, isJsWhitespace c = true) :
    handleSearch creds net args = .emptyQueryError := by
  have h0 : jsTrim args.query = "" := by
    unfold jsTrim
    rw [jsTrimList_eq_nil h]
  simp [handleSearch, h0]

/-- Witness for C7 at the whitespace-only query `" \t "`. -/
theorem empty_query_rejected_witness :
    (∀ c ∈ (" \t " : String).toList, isJsWhitespace c = true) ∧
    handleSearch stubCreds emptyItemsNet { query := " \t " } =
      .emptyQueryError :=
  ⟨by decide, empty_query_rejected stubCreds emptyItemsNet _ (by decide)⟩

/-- C3, counterexample: `num_results = 0` lies outside `[1, 10]`, yet the
search does not fail with the invalid-result-count error — `0` is falsy,
the range check is skipped, and the call proceeds (here to an empty
success). -/
theorem zero_result_count_not_rejected :
    ¬(1 ≤ (0 : Int) ∧ (0 : Int) ≤ 10) ∧
    handleSearch stubCreds emptyItemsNet zeroCountArgs = .results [] ∧
    handleSearch stubCreds emptyItemsNet zeroCountArgs ≠
      .invalidResultCountError := by
  decide

/-- C3, amended: every NONZERO `num_results` outside `[1, 10]` (with a
non-blank query, which is checked first) makes the search fail with the
invalid-result-count error, for every credential pair and upstream oracle;
`num_results = 0` is instead treated as unspecified and defaults to 5. -/
theorem out_of_range_result_count_rejected (creds : ApiCredentials)
    (net : UpstreamParams → UpstreamResponse) (args : SearchArgs) (n : Int)
    (hq : jsTrim args.query ≠ "") (hn : args.num_results = some n)
    (h0 : n ≠ 0) (hr : n < 1 ∨ 10 < n) :
    handleSearch creds net args = .invalidResultCountError := by
  have hrj : resultCountRejected args = true := by
    simp only [resultCountRejected, hn, Bool.and_eq_true, Bool.or_eq_true,
      bne_iff_ne, ne_eq, decide_eq_true_eq]
    exact ⟨h0, by omega⟩
  simp [handleSearch, hq, hrj]

/-- Witness for C3 (amended) at `num_results = 11`. -/
theorem out_of_range_result_count_rejected_witness :
    jsTrim "lean" ≠ "" ∧
    handleSearch stubCreds emptyItemsNet
      { query := "lean", num_results := some 11 } =
      .invalidResultCountError :=
  ⟨by decide,
   out_of_range_result_count_rejected stubCreds emptyItemsNet
     { query := "lean", num_results := some 11 } 11 (by decide) rfl
     (by decide) (by decide)⟩

/-- C5: once validation passes, the outcome is decided by the shape of the
upstream `items` field — a well-formed array (empty included) yields the
normalized results (so `[]` is an empty success), while a missing/falsy or
non-array `items` yields the no-results error. -/
theorem items_shape_determines_outcome (creds : ApiCredentials)
    (args : SearchArgs) (items : List UpstreamItem)
    (hq : jsTrim args.query ≠ "") (hn : resultCountRejected args = false) :
    handleSearch creds (fun _ => .respond (.array items)) args =
      .results (items.map mapSearchItem) ∧
    handleSearch creds (fun _ => .respond .missing) args = .noResultsError ∧
    handleSearch creds (fun _ => .respond .notArray) args =
      .noResultsError := by
  refine ⟨?_, ?_, ?_⟩ <;> simp [handleSearch, hq, hn]

/-- Witness for C5: the empty `items` array produces the empty success
list, and the malformed shapes produce the no-results error. -/
theorem items_shape_determines_outcome_witness :
    jsTrim "lean" ≠ "" ∧
    (handleSearch stubCreds (fun _ => .respond (.array [])) { query := "lean" } =
        .results ([].map mapSearchItem) ∧
     handleSearch stubCreds (fun _ => .respond .missing) { query := "lean" } =
        .noResultsError ∧
     handleSearch stubCreds (fun _ => .respond .notArray) { query := "lean" } =
        .noResultsError) :=
  ⟨by decide,
   items_shape_determines_outcome stubCreds { query := "lean" } []
     (by decide) (by decide)⟩

/-- C8: the upstream parameter set maps a provided (nonempty) language `l`
to `lr = "lang_" ++ l`, a provided (nonempty) country `c` to
`cr = "country" ++ toUpperCase c`, defaults `safe` to `"off"` when
`safe_search` is unspecified, and passes the query text and `dateRestrict`
through unchanged. -/
theorem search_parameter_mapping (creds : ApiCredentials)
    (args : SearchArgs) :
    (∀ l, args.language = some l → l ≠ "" →
      (buildSearchParams creds args).lr = some ("lang_" ++ l)) ∧
    (∀ c, args.country = some c → c ≠ "" →
      (buildSearchParams creds args).cr =
        some ("country" ++ jsToUpperCase c)) ∧
    (args.safe_search = none → (buildSearchParams creds args).safe = "off") ∧
    (buildSearchParams creds args).q = args.query ∧
    (buildSearchParams creds args).dateRestrict = args.date_restrict := by
  refine ⟨?_, ?_, ?_, rfl, rfl⟩
  · intro l hl hne
    simp [buildSearchParams, strTruthy, hl, hne]
  · intro c hc hne
    simp [buildSearchParams, strTruthy, hc, hne]
  · intro hs
    simp [buildSearchParams, strTruthy, hs]

/-- Witness for C8 at `language = "ja"`, `country = "us"`, no safe-search. -/
theorem search_parameter_mapping_witness :
    (buildSearchParams stubCreds mappingArgs).lr = some ("lang_" ++ "ja") ∧
    (buildSearchParams stubCreds mappingArgs).cr =
      some ("country" ++ jsToUpperCase "us") ∧
    (buildSearchParams stubCreds mappingArgs).safe = "off" ∧
    (buildSearchParams stubCreds mappingArgs).q = "lean" ∧
    (buildSearchParams stubCreds mappingArgs).dateRestrict = none :=
  ⟨(search_parameter_mapping stubCreds mappingArgs).1 "ja" rfl (by decide),
   (search_parameter_mapping stubCreds mappingArgs).2.1 "us" rfl (by decide),
   (search_parameter_mapping stubCreds mappingArgs).2.2.1 rfl,
   (search_parameter_mapping stubCreds mappingArgs).2.2.2.1,
   (search_parameter_mapping stubCreds mappingArgs).2.2.2.2⟩

/-! ## Preview and statistics lemmas (C6) -/

/-- Concatenating two character-list strings concatenates the lists. -/
theorem mk_append (a b : List Char) :
    String.mk a ++ String.mk b = String.mk (a ++ b) := rfl

/-- The modelled `substring(0, n)` has length `min n (length)`. -/
theorem jsSubstring_length (s : String) (n : Nat) :
    (jsSubstring s n).length = min n s.length := by
  cases s with
  | mk data => simp [jsSubstring, String.length, String.toList]

/-- The modelled `substring(0, n)` together with the dropped suffix
recovers the whole string — it is a true prefix. -/
theorem jsSubstring_append_drop (s : String) (n : Nat) :
    jsSubstring s n ++ String.mk (s.toList.drop n) = s := by
  cases s with
  | mk data =>
    show String.mk (data.take n) ++ String.mk (data.drop n) = String.mk data
    rw [mk_append, List.take_append_drop]

/-- C6: in every produced `WebpageContent`, `stats.word_count` is the
number of non-empty whitespace-delimited tokens of `markdown_content`,
`stats.approximate_chars` is its length, and
`content_preview.first_500_chars` is exactly the prefix of length
`min 500 (length)` — no padding, no truncation marker. -/
theorem stats_consistent (url : String) (doc : HNode) :
    (extractContent url doc).stats.word_count =
      countWords (extractContent url doc).markdown_content ∧
    (extractContent url doc).stats.approximate_chars =
      (extractContent url doc).markdown_content.length ∧
    (extractContent url doc).content_preview.first_500_chars =
      jsSubstring (extractContent url doc).markdown_content 500 ∧
    (extractContent url doc).content_preview.first_500_chars.length =
      min 500 (extractContent url doc).markdown_content.length ∧
    (extractContent url doc).content_preview.first_500_chars ++
        String.mk ((extractContent url doc).markdown_content.toList.drop 500) =
      (extractContent url doc).markdown_content :=
  ⟨rfl, rfl, rfl,
   jsSubstring_length (extractContent url doc).markdown_content 500,
   jsSubstring_append_drop (extractContent url doc).markdown_content 500⟩

/-! ## Batch aggregation lemmas (C1, C9, C10) -/

/-- Overwriting an existing key in place does not change the key list. -/
theorem map_fst_overwrite {α : Type} (m : List (String × α)) (k : String)
    (v : α) :
    (m.map (fun p => if p.1 = k then (k, v) else p)).map Prod.fst =
      m.map Prod.fst := by
  rw [List.map_map]
  apply List.map_congr_left
  intro p _
  by_cases hp : p.1 = k <;> simp [hp]

/-- Key membership after a JavaScript object assignment. -/
theorem mem_keys_objAssign {α : Type} (m : List (String × α)) (k : String)
    (v : α) (u : String) :
    u ∈ (objAssign m k v).map Prod.fst ↔ u ∈ m.map Prod.fst ∨ u = k := by
  unfold objAssign
  by_cases h : m.any (fun p => p.1 == k) = true
  · rw [if_pos h, map_fst_overwrite]
    have hk : k ∈ m.map Prod.fst := by
      obtain ⟨p, hp, hpk⟩ := List.any_eq_true.mp h
      exact List.mem_map.mpr ⟨p, hp, by simpa using hpk⟩
    exact ⟨Or.inl, fun h' => h'.elim id (fun he => he ▸ hk)⟩
  · rw [if_neg h]
    simp [List.mem_append]

/-- Key uniqueness is preserved by a JavaScript object assignment. -/
theorem nodup_keys_objAssign {α : Type} {m : List (String × α)} (k : String)
    (v : α) (h : (m.map Prod.fst).Nodup) :
    ((objAssign m k v).map Prod.fst).Nodup := by
  unfold objAssign
  by_cases hk : m.any (fun p => p.1 == k) = true
  · rw [if_pos hk, map_fst_overwrite]
    exact h
  · rw [if_neg hk]
    have hnk : k ∉ m.map Prod.fst := by
      intro hmem
      obtain ⟨p, hp, hpk⟩ := List.mem_map.mp hmem
      exact hk (List.any_eq_true.mpr ⟨p, hp, by simpa using hpk⟩)
    simp only [List.map_append, List.map_cons, List.map_nil]
    exact List.Nodup.append h (List.nodup_singleton k) (by simpa using hnk)

/-- Every slot of an object after an assignment is an old slot or the
assigned pair. -/
theorem mem_objAssign {α : Type} {m : List (String × α)} {k : String}
    {v : α} {p : String × α} (hp : p ∈ objAssign m k v) :
    p ∈ m ∨ p = (k, v) := by
  unfold objAssign at hp
  by_cases hk : m.any (fun q => q.1 == k) = true
  · rw [if_pos hk] at hp
    obtain ⟨q, hq, hqe⟩ := List.mem_map.mp hp
    by_cases hq1 : q.1 = k
    · right
      rw [← hqe, if_pos hq1]
    · left
      rw [← hqe, if_neg hq1]
      exact hq
  · rw [if_neg hk] at hp
    rcases List.mem_append.mp hp with h | h
    · exact .inl h
    · exact .inr (by simpa using h)

/-- Key membership in the batch aggregation result. -/
theorem mem_keys_batchRun (net : String → NetResponse) (urls : List String) :
    ∀ (acc : List (String × BatchEntry)) (u : String),
      u ∈ (batchRun net urls acc).map Prod.fst ↔
        u ∈ acc.map Prod.fst ∨ u ∈ urls := by
  induction urls with
  | nil =>
    intro acc u
    simp [batchRun]
  | cons hd tl ih =>
    intro acc u
    simp only [batchRun, List.foldl_cons] at ih ⊢
    rw [ih, mem_keys_objAssign]
    simp only [List.mem_cons]
    tauto

/-- The batch aggregation keeps its keys unique. -/
theorem nodup_keys_batchRun (net : String → NetResponse)
    (urls : List String) :
    ∀ acc : List (String × BatchEntry), (acc.map Prod.fst).Nodup →
      ((batchRun net urls acc).map Prod.fst).Nodup := by
  induction urls with
  | nil =>
    intro acc h
    simpa [batchRun] using h
  | cons hd tl ih =>
    intro acc h
    simp only [batchRun, List.foldl_cons] at ih ⊢
    exact ih _ (nodup_keys_objAssign hd (batchEntry net hd) h)

/-- Every slot of the batch aggregation result either came from the
accumulator or holds its own URL's fetch outcome. -/
theorem mem_batchRun (net : String → NetResponse) (urls : List String) :
    ∀ (acc : List (String × BatchEntry)) (p : String × BatchEntry),
      p ∈ batchRun net urls acc →
        p ∈ acc ∨ (p.1 ∈ urls ∧ p.2 = batchEntry net p.1) := by
  induction urls with
  | nil =>
    intro acc p hp
    simp only [batchRun, List.foldl_nil] at hp
    exact .inl hp
  | cons hd tl ih =>
    intro acc p hp
    simp only [batchRun, List.foldl_cons] at ih hp
    rcases ih _ p hp with h | h
    · rcases mem_objAssign h with h' | h'
      · exact .inl h'
      · subst h'
        exact .inr ⟨List.mem_cons_self hd tl, rfl⟩
    · exact .inr ⟨List.mem_cons_of_mem _ h.1, h.2⟩

/-- C1: a batch of at most 5 URLs always succeeds, and the result object's
key set is exactly the set of input URLs — every input URL is a key, no
extra keys, keys unique — with every slot holding either an extracted page
or an error entry, whatever the per-URL network outcomes are. -/
theorem batch_result_keys (net : String → NetResponse) (urls : List String)
    (h : urls.length ≤ 5) :
    ∃ m, batchFetchContent net urls = .ok m ∧
      (∀ u, u ∈ m.map Prod.fst ↔ u ∈ urls) ∧
      (m.map Prod.fst).Nodup ∧
      ∀ p ∈ m, (∃ c, p.2 = BatchEntry.page c) ∨
        ∃ msg, p.2 = BatchEntry.failure msg := by
  refine ⟨batchRun net urls [], ?_, ?_, ?_, ?_⟩
  · unfold batchFetchContent
    rw [if_neg (Nat.not_lt.mpr h)]
  · intro u
    simpa using mem_keys_batchRun net urls [] u
  · exact nodup_keys_batchRun net urls [] (by simp)
  · intro p _
    cases hp : p.2 with
    | page c => exact .inl ⟨c, rfl⟩
    | failure msg => exact .inr ⟨msg, rfl⟩

/-- Witness for C1: a two-URL batch (one fetchable URL, one malformed one)
over the always-failing oracle. -/
theorem batch_result_keys_witness :
    (["https://example.com", "invalid-url"] : List String).length ≤ 5 ∧
    (∃ m, batchFetchContent failingNet ["https://example.com", "invalid-url"] =
        .ok m ∧
      (∀ u, u ∈ m.map Prod.fst ↔ u ∈ ["https://example.com", "invalid-url"]) ∧
      (m.map Prod.fst).Nodup ∧
      ∀ p ∈ m, (∃ c, p.2 = BatchEntry.page c) ∨
        ∃ msg, p.2 = BatchEntry.failure msg) :=
  ⟨by decide,
   batch_result_keys failingNet ["https://example.com", "invalid-url"]
     (by decide)⟩

/-- Six syntactically valid URLs. -/
def sixUrls : List String :=
  ["https://a.example", "https://b.example", "https://c.example",
   "https://d.example", "https://e.example", "https://f.example"]

/-- C9: more than 5 URLs makes the batch coordinator fail with the limit
message and the router handler answer the limit error, and the outcome is
the same under every network oracle — zero network calls are issued. -/
theorem batch_limit_exceeded (net : String → NetResponse)
    (urls : List String) (h : urls.length > 5) :
    batchFetchContent net urls = .error batchLimitMessage ∧
    handleBatchAnalyzeWebpages net urls = .limitError ∧
    ∀ net2 : String → NetResponse,
      batchFetchContent net2 urls = batchFetchContent net urls ∧
      handleBatchAnalyzeWebpages net2 urls =
        handleBatchAnalyzeWebpages net urls := by
  refine ⟨?_, ?_, fun net2 => ⟨?_, ?_⟩⟩ <;>
    simp [batchFetchContent, handleBatchAnalyzeWebpages, h]

/-- Witness for C9 at a list of six URLs. -/
theorem batch_limit_exceeded_witness :
    sixUrls.length > 5 ∧
    (batchFetchContent failingNet sixUrls = .error batchLimitMessage ∧
     handleBatchAnalyzeWebpages failingNet sixUrls = .limitError ∧
     ∀ net2 : String → NetResponse,
       batchFetchContent net2 sixUrls = batchFetchContent failingNet sixUrls ∧
       handleBatchAnalyzeWebpages net2 sixUrls =
         handleBatchAnalyzeWebpages failingNet sixUrls) :=
  ⟨by decide, batch_limit_exceeded failingNet sixUrls (by decide)⟩

/-- If every slot is an error entry, no key counts as successful. -/
theorem successfulKeys_eq_nil {m : List (String × BatchEntry)}
    (hf : ∀ p ∈ m, isFailureEntry p.2 = true) : successfulKeys m = [] := by
  unfold successfulKeys
  rw [List.filter_eq_nil_iff]
  intro u hu
  cases hfind : m.find? (fun p => p.1 == u) with
  | none => simp [hfind]
  | some q =>
    have hqm : q ∈ m := List.mem_of_find?_eq_some hfind
    simp [hfind, hf q hqm]

/-- A nonempty successful-keys list exhibits a non-error slot. -/
theorem exists_page_of_successfulKeys_ne_nil
    {m : List (String × BatchEntry)} (h : successfulKeys m ≠ []) :
    ∃ p ∈ m, isFailureEntry p.2 = false := by
  obtain ⟨u, hu⟩ := List.exists_mem_of_ne_nil _ h
  unfold successfulKeys at hu
  have hpred := List.of_mem_filter hu
  cases hfind : m.find? (fun p => p.1 == u) with
  | none => simp [hfind] at hpred
  | some q =>
    have hqm : q ∈ m := List.mem_of_find?_eq_some hfind
    rw [hfind] at hpred
    simp only [Bool.not_eq_true'] at hpred
    exact ⟨q, hqm, hpred⟩

/-- C10: when every URL passes syntactic validation but every extraction
fails, the router's batch handler returns the generic all-failed error
response instead of the per-URL error mapping; the mapping is returned
only when at least one slot succeeded. -/
theorem batch_all_failed (net : String → NetResponse) (urls : List String) :
    (urls.length ≤ 5 →
      (∀ u ∈ urls, isValidURLString u = true) →
      (∀ u ∈ urls, isFailureEntry (batchEntry net u) = true) →
      handleBatchAnalyzeWebpages net urls = .allFailedError) ∧
    (∀ m, handleBatchAnalyzeWebpages net urls = .results m →
      ∃ p ∈ m, isFailureEntry p.2 = false) := by
  constructor
  · intro h5 hv hf
    have hok : batchFetchContent net urls = .ok (batchRun net urls []) := by
      unfold batchFetchContent
      rw [if_neg (Nat.not_lt.mpr h5)]
    have hinv : urls.filter (fun u => !isValidURLString u) = [] := by
      rw [List.filter_eq_nil_iff]
      intro u hu
      simp [hv u hu]
    have hall : ∀ p ∈ batchRun net urls [], isFailureEntry p.2 = true := by
      intro p hp
      rcases mem_batchRun net urls [] p hp with h | h
      · simp at h
      · rw [h.2]
        exact hf p.1 h.1
    simp [handleBatchAnalyzeWebpages, Nat.not_lt.mpr h5, hinv, hok,
      successfulKeys_eq_nil hall]
  · intro m hm
    unfold handleBatchAnalyzeWebpages at hm
    by_cases h5 : urls.length > 5
    · rw [if_pos h5] at hm
      cases hm
    · rw [if_neg h5] at hm
      by_cases hinv : (urls.filter (fun u => !isValidURLString u)).length > 0
      · rw [if_pos hinv] at hm
        cases hm
      · rw [if_neg hinv] at hm
        have hok : batchFetchContent net urls = .ok (batchRun net urls []) := by
          unfold batchFetchContent
          rw [if_neg h5]
        rw [hok] at hm
        simp only at hm
        by_cases hz : (successfulKeys (batchRun net urls [])).length = 0
        · rw [if_pos hz] at hm
          cases hm
        · rw [if_neg hz] at hm
          have hmm : batchRun net urls [] = m := by
            cases hm
            rfl
          subst hmm
          exact exists_page_of_successfulKeys_ne_nil
            (fun hnil => hz (by rw [hnil]; rfl))

/-- Witness for C10: a single valid URL over the always-failing oracle
ends in the generic all-failed error response. -/
theorem batch_all_failed_witness :
    handleBatchAnalyzeWebpages failingNet ["https://example.com"] =
      .allFailedError :=
  (batch_all_failed failingNet ["https://example.com"]).1
    (by decide) (by decide) (by decide)

end GoogleSearchMcp
